import Mathlib

/-!
Verification of the vcslocator library (parsing of SPDX VCS locator strings
and the batched copy orchestrator) against its specification.

Go strings are modelled as `List Char`; every helper mirrors the
corresponding Go standard-library function used by the source
(`strings.Cut`, `strings.TrimPrefix`, `strings.HasPrefix`, regexp matches
written out as explicit character predicates).
-/

/-- A Go string, modelled as its list of characters. -/
abbrev GoString := List Char

/-- Model of `strings.Cut(s, sep)` for a one-character separator: splits at
the first occurrence of `sep`, returning (before, after, found). -/
def cut (s : GoString) (sep : Char) : GoString × GoString × Bool :=
  match s with
  | [] => ([], [], false)
  | x :: rest =>
    if x = sep then ([], rest, true)
    else
      let r := cut rest sep
      (x :: r.1, r.2.1, r.2.2)

/-- Model of `strings.HasPrefix(s, p)`. -/
def hasPref (s p : GoString) : Bool := p.isPrefixOf s

/-- Model of `strings.TrimPrefix(s, p)`: drops `p` from the front of `s`
when it is a prefix, otherwise returns `s` unchanged. -/
def trimPref (s p : GoString) : GoString :=
  if p.isPrefixOf s then s.drop p.length else s

/-- Characters matched by the character class `[a-f0-9]` of the
`sha1Pattern` and `sha1ShortPattern` regular expressions in locator.go. -/
def isShaChar (c : Char) : Bool :=
  ('a' ≤ c && c ≤ 'f') || ('0' ≤ c && c ≤ '9')

/-- Model of `sha1Regex.MatchString`: the anchored pattern
`^[a-f0-9]{40}$` holds exactly when the string has length 40 and every
character is lowercase hex. -/
def matchesSha1 (s : GoString) : Bool :=
  s.length = 40 && s.all isShaChar

/-- Model of `sha1ShortRegex.MatchString`: the anchored pattern
`^[a-f0-9]{7}$`. -/
def matchesShortSha1 (s : GoString) : Bool :=
  s.length = 7 && s.all isShaChar

/-- Characters matched by the class `[-A-Za-z0-9_]` of `slugRegexPattern`. -/
def isSlugChar (c : Char) : Bool :=
  c = '-' || ('A' ≤ c && c ≤ 'Z') || ('a' ≤ c && c ≤ 'z') ||
    ('0' ≤ c && c ≤ '9') || c = '_'

/-- Model of `slugRegex.MatchString` for the anchored pattern
`^[-A-Za-z0-9_]+/[-A-Za-z0-9_]+$`: one run of slug characters, a single
slash, and a second run of slug characters.  Since `/` is not a slug
character, it suffices to cut at the first slash and check both sides are
nonempty runs of slug characters. -/
def slugMatch (s : GoString) : Bool :=
  let r := cut s '/'
  r.2.2 && !r.1.isEmpty && !r.2.1.isEmpty &&
    r.1.all isSlugChar && r.2.1.all isSlugChar

/-- The `options` struct of options.go (the fields read by the parser). -/
structure options where
  RefIsBranch : Bool
  ClonePath : GoString
deriving DecidableEq, Repr

/-- The `defaultOptions` value of options.go. -/
def defaultOptions : options := { RefIsBranch := false, ClonePath := [] }

/-- The `Components` struct of components.go. -/
structure Components where
  Tool : GoString
  Transport : GoString
  Hostname : GoString
  RepoPath : GoString
  RefString : GoString
  Commit : GoString
  Tag : GoString
  Branch : GoString
  SubPath : GoString
deriving DecidableEq, Repr

/-- Model of `parseRefString` in locator.go: classifies a revision token
as tag, branch or commit, returning `(tag, branch, commitSha)`.  The
commit heuristic fires on full or short lowercase sha1 strings; the
switch then runs its cases in source order. -/
def parseRefString (ref : GoString) (opts : options) :
    GoString × GoString × GoString :=
  let commitSha : GoString :=
    if matchesSha1 ref || matchesShortSha1 ref then ref else []
  if hasPref ref ("refs/tags/".data) then
    (trimPref ref ("refs/tags/".data), [], commitSha)
  else if hasPref ref ("refs/heads/".data) then
    ([], trimPref ref ("refs/heads/".data), commitSha)
  else if commitSha = [] ∧ opts.RefIsBranch then
    ([], ref, commitSha)
  else if commitSha = [] ∧ ¬opts.RefIsBranch ∧ ¬hasPref ref ("refs/".data) then
    (ref, [], commitSha)
  else
    ([], [], commitSha)

/-- Model of `Components.RepoURL` in components.go. -/
def Components.RepoURL (c : Components) : GoString :=
  if c.Transport = "https".data ∨ c.Transport = [] then
    "https://".data ++ c.Hostname ++ '/' :: trimPref c.RepoPath ("/".data)
  else if c.Transport = "ssh".data then
    "git@".data ++ c.Hostname ++ ':' :: trimPref c.RepoPath ("/".data)
  else []

/-- Percent-decoding, modelling the unescaping Go's `net/url.Parse`
applies to paths and fragments: `%XY` with two hex digits becomes the
corresponding character, a malformed escape is a parse error (`none`). -/
def percentDecode : GoString → Option GoString
  | [] => some []
  | '%' :: a :: b :: rest =>
    if a.isDigit || ('a' ≤ a && a ≤ 'f') || ('A' ≤ a && a ≤ 'F') then
      if b.isDigit || ('a' ≤ b && b ≤ 'f') || ('A' ≤ b && b ≤ 'F') then
        match percentDecode rest with
        | some r => some (Char.ofNat (16 * hexVal a + hexVal b) :: r)
        | none => none
      else none
    else none
  | '%' :: _ => none
  | c :: rest =>
    match percentDecode rest with
    | some r => some (c :: r)
    | none => none
where
  /-- Numeric value of a hex digit. -/
  hexVal (c : Char) : Nat :=
    if c.isDigit then c.toNat - '0'.toNat
    else if 'a' ≤ c && c ≤ 'f' then c.toNat - 'a'.toNat + 10
    else c.toNat - 'A'.toNat + 10

/-- The result of the generic URI parse, holding the pieces of
`net/url.URL` that locator.go reads: `u.Scheme`, `u.Hostname()`,
`u.Path` and `u.Fragment`. -/
structure GoURL where
  scheme : GoString
  hostname : GoString
  path : GoString
  fragment : GoString
deriving DecidableEq, Repr

/-- Scheme scanner of Go's `net/url.getScheme`: a scheme is
`ALPHA (ALPHA|DIGIT|+|-|.)*` followed by `:`; the scheme is lowercased.
Returns `(scheme, rest)`, with an empty scheme when the string has none,
and `none` for the "missing protocol scheme" error (a leading colon). -/
def schemeLoop (orig : GoString) : GoString → GoString → Option (GoString × GoString)
  | _, [] => some ([], orig)
  | acc, c :: rest =>
    if c = ':' then some (acc.reverse.map Char.toLower, rest)
    else if c.isAlpha || c.isDigit || c = '+' || c = '-' || c = '.' then
      schemeLoop orig (c :: acc) rest
    else some ([], orig)

/-- Entry point of the scheme scanner (see `schemeLoop`). -/
def schemeSplit (s : GoString) : Option (GoString × GoString) :=
  match s with
  | [] => some ([], [])
  | c :: rest =>
    if c.isAlpha then schemeLoop s [c] rest
    else if c = ':' then none
    else some ([], s)

/-- The host part of an authority: Go takes the substring after the last
`@` (userinfo is everything before it). -/
def afterLastAt (a : GoString) : GoString :=
  if a.contains '@' then (a.reverse.takeWhile (fun c => c ≠ '@')).reverse
  else a

/-- Hostname of an authority as produced by `net/url`: userinfo is
dropped, and a trailing `:port` (digits only) is stripped as
`URL.Hostname()` does; a non-numeric port is a parse error. -/
def hostnameOf (authority : GoString) : Option GoString :=
  let host := afterLastAt authority
  if host.contains ':' then
    let rport := host.reverse.takeWhile (fun c => c ≠ ':')
    if rport.all Char.isDigit then
      some ((host.reverse.drop (rport.length + 1)).reverse)
    else none
  else some host

/-- Model of Go's `net/url.Parse` restricted to the shapes the locator
grammar produces: the fragment is split at the first `#` and
percent-decoded, the scheme is scanned, the query is split at the first
`?` and discarded, an authority (after `//`) yields the hostname with the
path being the decoded remainder; without `//`, a URI with a scheme and
no leading slash is opaque (empty path), and a scheme-less string is all
path (rejecting a colon in its first segment as Go does). -/
def urlParse (s : GoString) : Option GoURL :=
  let f := cut s '#'
  match percentDecode f.2.1 with
  | none => none
  | some frag =>
    match schemeSplit f.1 with
    | none => none
    | some sr =>
      let scheme := sr.1
      let restNQ := (cut sr.2 '?').1
      if hasPref restNQ ("//".data) then
        let a := cut (restNQ.drop 2) '/'
        let rawPath : GoString := if a.2.2 then '/' :: a.2.1 else []
        match hostnameOf a.1 with
        | none => none
        | some hn =>
          match percentDecode rawPath with
          | none => none
          | some p =>
            some { scheme := scheme, hostname := hn, path := p, fragment := frag }
      else
        if scheme ≠ [] ∧ ¬hasPref restNQ ("/".data) then
          some { scheme := scheme, hostname := [], path := [], fragment := frag }
        else if scheme = [] ∧ (cut restNQ '/').1.contains ':' then
          none
        else
          match percentDecode restNQ with
          | none => none
          | some p =>
            some { scheme := scheme, hostname := [], path := p, fragment := frag }

example : urlParse ("https://github.com/example/test".data) =
    some { scheme := "https".data, hostname := "github.com".data,
           path := "/example/test".data, fragment := [] } := by decide
example : urlParse ("org/repo".data) =
    some { scheme := [], hostname := [], path := "org/repo".data,
           fragment := [] } := by decide
example : urlParse ("git+http://github.com/example/test@abcd#%2egithub/dependabot.yaml".data) =
    some { scheme := "git+http".data, hostname := "github.com".data,
           path := "/example/test@abcd".data,
           fragment := ".github/dependabot.yaml".data } := by decide
example : urlParse (".".data) =
    some { scheme := [], hostname := [], path := ".".data, fragment := [] } := by decide

/-- Error taxonomy of `Locator.Parse`, one constructor per error return
site in locator.go: the empty-locator check, a `net/url.Parse` failure,
the unsupported-transport check, and the empty-path check for the file
transport. -/
inductive ParseErr where
  | emptyLocator
  | badURI
  | unsupportedTransport
  | missingFilePath
deriving DecidableEq, Repr

instance {ε α : Type} [DecidableEq ε] [DecidableEq α] :
    DecidableEq (Except ε α) := fun a b =>
  match a, b with
  | .error e, .error f =>
    if h : e = f then isTrue (h ▸ rfl) else isFalse (fun hc => h (by cases hc; rfl))
  | .error _, .ok _ => isFalse (fun hc => Except.noConfusion hc)
  | .ok _, .error _ => isFalse (fun hc => Except.noConfusion hc)
  | .ok x, .ok y =>
    if h : x = y then isTrue (h ▸ rfl) else isFalse (fun hc => h (by cases hc; rfl))

/-- Model of `Locator.Parse` in locator.go, after the functional options
have been folded into `opts`: detects the `file://` literal prefix, runs
the generic URI parse on the pre-trimmed string, takes the github-slug
shortcut when there is no hostname and no scheme and the path matches the
slug regex, otherwise cuts the ref from the path, cuts the scheme on `+`,
forces `Transport=file, Tool=git` for the file prefix, rejects a plain
transport outside {https, ssh, file}, classifies the ref, folds a
hostname of a file URI into the path, and rejects an empty file path. -/
def locatorParse (l : GoString) (opts : options) : Except ParseErr Components :=
  if l = [] then .error .emptyLocator
  else
    let transportIsFile := hasPref l ("file://".data)
    match urlParse (trimPref l ("file://".data)) with
    | none => .error .badURI
    | some u =>
      let slug : Option Components :=
        if u.hostname = [] ∧ u.scheme = [] ∧ u.path ≠ [] then
          let pr := cut u.path '@'
          if slugMatch pr.1 then
            let tbc := parseRefString pr.2.1 opts
            some { Tool := "git".data, Transport := "https".data,
                   Hostname := "github.com".data, RepoPath := pr.1,
                   RefString := pr.2.1, Commit := tbc.2.2, Tag := tbc.1,
                   Branch := tbc.2.1, SubPath := u.fragment }
          else none
        else none
      match slug with
      | some c => .ok c
      | none =>
        let pr := cut u.path '@'
        let ts := cut u.scheme '+'
        let tool₀ := if transportIsFile then "git".data else ts.1
        let transport₀ := if transportIsFile then "file".data else ts.2.1
        let si := if transportIsFile then true else ts.2.2
        if si then
          mkComponents tool₀ transport₀ u pr.1 pr.2.1 opts
        else
          let transport := tool₀
          if transport ≠ "https".data ∧ transport ≠ "ssh".data ∧
              transport ≠ "file".data then
            .error .unsupportedTransport
          else
            mkComponents [] transport u pr.1 pr.2.1 opts
where
  /-- The file-host folding of `Locator.Parse` (locator.go lines 120-128):
  when the transport is `file` and the URI parse produced a hostname, the
  hostname is prepended to the path and cleared; the result is the pair
  (path, hostname). -/
  fileFold (transport : GoString) (u : GoURL) (path₀ : GoString) :
      GoString × GoString :=
    if transport = "file".data ∧ u.hostname ≠ [] then
      (if path₀ = [] then u.hostname
       else u.hostname ++ '/' :: trimPref path₀ ("/".data), [])
    else (path₀, u.hostname)
  /-- Tail of `Locator.Parse` shared by both transport branches: ref
  classification, file-host folding, the empty-file-path check, and the
  final `Components` value. -/
  mkComponents (tool transport : GoString) (u : GoURL)
      (path₀ ref : GoString) (opts : options) : Except ParseErr Components :=
    let tbc := parseRefString ref opts
    let hp := fileFold transport u path₀
    if hp.1 = [] ∧ transport = "file".data then .error .missingFilePath
    else
      .ok { Tool := tool, Transport := transport, Hostname := hp.2,
            RepoPath := hp.1, RefString := ref, Commit := tbc.2.2,
            Tag := tbc.1, Branch := tbc.2.1, SubPath := u.fragment }

example : locatorParse ("https://github.com/example/test".data) defaultOptions =
    .ok { Tool := [], Transport := "https".data, Hostname := "github.com".data,
          RepoPath := "/example/test".data, RefString := [], Commit := [],
          Tag := [], Branch := [], SubPath := [] } := by decide

example : locatorParse ("https://github.com/example/test@25c779ba165d1f4fac6fc2ce938bf40c1f8ab1a6".data) defaultOptions =
    .ok { Tool := [], Transport := "https".data, Hostname := "github.com".data,
          RepoPath := "/example/test".data,
          RefString := "25c779ba165d1f4fac6fc2ce938bf40c1f8ab1a6".data,
          Commit := "25c779ba165d1f4fac6fc2ce938bf40c1f8ab1a6".data,
          Tag := [], Branch := [], SubPath := [] } := by decide

example : locatorParse ("git+http://github.com/example/test@abcd#%2egithub/dependabot.yaml".data)
      { RefIsBranch := true, ClonePath := [] } =
    .ok { Tool := "git".data, Transport := "http".data, Hostname := "github.com".data,
          RepoPath := "/example/test".data, RefString := "abcd".data, Commit := [],
          Tag := [], Branch := "abcd".data,
          SubPath := ".github/dependabot.yaml".data } := by decide

example : locatorParse ("file:///github.com/example/test".data) defaultOptions =
    .ok { Tool := "git".data, Transport := "file".data, Hostname := [],
          RepoPath := "/github.com/example/test".data, RefString := [],
          Commit := [], Tag := [], Branch := [], SubPath := [] } := by decide

example : locatorParse ("file://github.com/example/test".data) defaultOptions =
    .ok { Tool := "git".data, Transport := "file".data, Hostname := [],
          RepoPath := "github.com/example/test".data, RefString := [],
          Commit := [], Tag := [], Branch := [], SubPath := [] } := by decide

example : locatorParse ("file://.".data) defaultOptions =
    .ok { Tool := "git".data, Transport := "file".data, Hostname := [],
          RepoPath := ".".data, RefString := [], Commit := [], Tag := [],
          Branch := [], SubPath := [] } := by decide

example : locatorParse ("file:///home/user/repo@refs/notes/commits#28/a0276dde459992f3d8bbb4cb41cd34313a99ff".data) defaultOptions =
    .ok { Tool := "git".data, Transport := "file".data, Hostname := [],
          RepoPath := "/home/user/repo".data,
          RefString := "refs/notes/commits".data, Commit := [], Tag := [],
          Branch := [],
          SubPath := "28/a0276dde459992f3d8bbb4cb41cd34313a99ff".data } := by decide

example : locatorParse ("http://github.com/example/test".data) defaultOptions =
    .error .unsupportedTransport := by decide

example : locatorParse [] defaultOptions = .error .emptyLocator := by decide

example : matchesShortSha1 ("0123abc".data) = true := by decide
example : matchesSha1 ("25c779ba165d1f4fac6fc2ce938bf40c1f8ab1a6".data) = true := by decide
example : slugMatch ("org/repo".data) = true := by decide
example : slugMatch ("github.com/example/test".data) = false := by decide
example : parseRefString ("v1".data) defaultOptions = ("v1".data, [], []) := by decide
example : parseRefString ("refs/notes/commits".data) defaultOptions = ([], [], []) := by decide

/-- An error produced by a copy-phase task of `CopyFileGroup`: the body of
the goroutine either fails to open the subpath in the plan's filesystem or
fails while streaming the bytes (get.go lines 116-127). -/
inductive CopyErr where
  | openFailed (path : GoString)
  | copyFailed
deriving DecidableEq, Repr

/-- The error values `CopyFileGroup` can return, one constructor per
return site in get.go: the writer-count check, the per-index parse
failure, the clone-phase aggregate, and the positional `ErrorList` of the
copy phase (its `Errors` slice, one `Option` slot per original index). -/
inductive GroupErr where
  | writersMismatch
  | parseFailure (i : Nat)
  | cloneFailure
  | errorList (Errors : List (Option CopyErr))
deriving DecidableEq, Repr

/-- The `copyPlan` struct of get.go: the representative locator, its
parsed components, and the `Files` map from original batch index to
requested subpath (modelled as an insertion-ordered association list;
indices are inserted exactly once, so list and map agree).  The `FS`
handle filled in by the clone phase is runtime state and not modelled. -/
structure copyPlan where
  Locator : GoString
  Components : Components
  Files : List (Nat × GoString)
deriving DecidableEq, Repr

/-- The deduplication key of the clone plan:
`fmt.Sprintf("%s:%s", components.RepoURL(), components.RefString)`
at get.go line 78. -/
def dedupKey (c : Components) : GoString :=
  c.RepoURL ++ ':' :: c.RefString

/-- One iteration of the plan-building loop body (get.go lines 78-86):
look the key up in `cloneList`, create a fresh plan with empty `Files`
when absent, then record `Files[i] = components.SubPath` in the plan at
that key. -/
def insertPlan (acc : List (GoString × copyPlan)) (l : GoString) (i : Nat)
    (c : Components) : List (GoString × copyPlan) :=
  match acc with
  | [] =>
    [(dedupKey c, { Locator := l, Components := c, Files := [(i, c.SubPath)] })]
  | (k, p) :: rest =>
    if k = dedupKey c then
      (k, { p with Files := p.Files ++ [(i, c.SubPath)] }) :: rest
    else
      (k, p) :: insertPlan rest l i c

/-- The plan-building loop of `CopyFileGroup` (get.go lines 70-87): each
locator is parsed with default options; a parse failure returns
`fmt.Errorf("error parsing locator %d", i)` for the whole batch. -/
def buildCloneListGo (i : Nat) (acc : List (GoString × copyPlan)) :
    List GoString → Except GroupErr (List (GoString × copyPlan))
  | [] => .ok acc
  | l :: rest =>
    match locatorParse l defaultOptions with
    | .error _ => .error (.parseFailure i)
    | .ok c => buildCloneListGo (i + 1) (insertPlan acc l i c) rest

/-- The clone plan of a batch: `cloneList` as built by the first loop of
`CopyFileGroup`. -/
def buildCloneList (locators : List GoString) :
    Except GroupErr (List (GoString × copyPlan)) :=
  buildCloneListGo 0 [] locators

/-- The clone phase (get.go lines 90-104) spawns exactly one
`CloneRepository(copyplan.Locator)` call per entry of `cloneList`; this is
the list of locators passed to those calls. -/
def cloneCalls (cl : List (GoString × copyPlan)) : List GoString :=
  cl.map (fun kv => kv.2.Locator)

/-- All original batch indices reachable from the plan list, one per
`Files` entry: the copy phase spawns exactly one task per such index. -/
def planIndices (cl : List (GoString × copyPlan)) : List Nat :=
  cl.foldr (fun kv acc => kv.2.Files.map Prod.fst ++ acc) []

/-- The `errs` map written by the copy-phase tasks (get.go lines 111-132):
for each index reached through some plan's `Files`, the task for that
index records its error, if any.  `outcome i` abstracts the result of
opening and streaming index `i`'s subpath. -/
def copyPhase (cl : List (GoString × copyPlan))
    (outcome : Nat → Option CopyErr) : List (Nat × CopyErr) :=
  (planIndices cl).filterMap (fun i => (outcome i).map (fun e => (i, e)))

/-- The result aggregation of `CopyFileGroup` (get.go lines 134-147): when
`errs` is empty the function returns nil; otherwise it projects `errs`
through the original index range `0..n-1`, appending the recorded error or
nil per position, and wraps the list in a single `ErrorList`. -/
def aggregateErrors (n : Nat) (errs : List (Nat × CopyErr)) :
    Option GroupErr :=
  if errs = [] then none
  else some (.errorList ((List.range n).map (fun i => errs.lookup i)))

/-- Model of `CopyFileGroup` in get.go.  The per-writer destinations are
represented only by their count; `cloneFail` abstracts the result of the
`CloneRepository` call for a plan's locator, and `outcome` the per-index
result of the copy-phase task (both external I/O).  The structure of the
function mirrors the source: length check, plan building (aborting on the
first parse failure), the clone phase failing the whole batch when any
clone errs, then the copy phase and positional aggregation. -/
def copyFileGroup (locators : List GoString) (numWriters : Nat)
    (cloneFail : GoString → Option Unit)
    (outcome : Nat → Option CopyErr) : Option GroupErr :=
  if locators.length ≠ numWriters then some .writersMismatch
  else
    match buildCloneList locators with
    | .error e => some e
    | .ok cl =>
      if cl.all (fun kv => (cloneFail kv.2.Locator).isNone) then
        aggregateErrors locators.length (copyPhase cl outcome)
      else some .cloneFailure

example :
    buildCloneList ["x/y@v1#a".data, "x/y@v1#b".data, "x/y@v2#a".data] =
    .ok [("https://github.com/x/y:v1".data,
          { Locator := "x/y@v1#a".data,
            Components :=
              { Tool := "git".data, Transport := "https".data,
                Hostname := "github.com".data, RepoPath := "x/y".data,
                RefString := "v1".data, Commit := [], Tag := "v1".data,
                Branch := [], SubPath := "a".data },
            Files := [(0, "a".data), (1, "b".data)] }),
         ("https://github.com/x/y:v2".data,
          { Locator := "x/y@v2#a".data,
            Components :=
              { Tool := "git".data, Transport := "https".data,
                Hostname := "github.com".data, RepoPath := "x/y".data,
                RefString := "v2".data, Commit := [], Tag := "v2".data,
                Branch := [], SubPath := "a".data },
            Files := [(2, "a".data)] })] := by decide

/-! ### Lemmas about the ref classifier -/

/-- The invariant claimed for the classification fields of `Components`:
exactly one of commit, tag, branch is non-empty, or all three are empty. -/
def exactlyOneOrAllEmpty (commit tag branch : GoString) : Prop :=
  (commit ≠ [] ∧ tag = [] ∧ branch = []) ∨
  (tag ≠ [] ∧ commit = [] ∧ branch = []) ∨
  (branch ≠ [] ∧ commit = [] ∧ tag = []) ∨
  (commit = [] ∧ tag = [] ∧ branch = [])

instance (c t b : GoString) : Decidable (exactlyOneOrAllEmpty c t b) := by
  unfold exactlyOneOrAllEmpty; infer_instance

theorem hasPref_exists (s p : GoString) (h : hasPref s p = true) :
    ∃ t, s = p ++ t := by
  have h' : p <+: s := by
    simpa [hasPref, List.isPrefixOf_iff_prefix] using h
  obtain ⟨t, ht⟩ := h'
  exact ⟨t, ht.symm⟩

/-- A token starting with `refs/` cannot look like a sha1: its first
character is `r`, which is not in `[a-f0-9]`. -/
theorem refs_not_sha (ref : GoString) (h : hasPref ref ("refs/".data) = true) :
    (matchesSha1 ref || matchesShortSha1 ref) = false := by
  obtain ⟨t, rfl⟩ := hasPref_exists ref _ h
  simp [matchesSha1, matchesShortSha1, isShaChar]

theorem hasPref_trans (s p q : GoString) (hpq : hasPref q p = true)
    (h : hasPref s q = true) : hasPref s p = true := by
  obtain ⟨t, rfl⟩ := hasPref_exists s q h
  obtain ⟨t', rfl⟩ := hasPref_exists q p hpq
  simp only [hasPref, List.isPrefixOf_iff_prefix, List.append_assoc]
  exact ⟨t' ++ t, rfl⟩

/-- The classifier output always satisfies the exactly-one-or-all-empty
invariant. -/
theorem parseRefString_invariant (ref : GoString) (opts : options) :
    exactlyOneOrAllEmpty (parseRefString ref opts).2.2
      (parseRefString ref opts).1 (parseRefString ref opts).2.1 := by
  unfold parseRefString
  by_cases h1 : hasPref ref ("refs/tags/".data) = true
  · have hsha : (matchesSha1 ref || matchesShortSha1 ref) = false :=
      refs_not_sha ref (hasPref_trans ref ("refs/".data) ("refs/tags/".data)
        (by decide) h1)
    simp only [hsha, h1, Bool.false_eq_true, if_false, if_true]
    by_cases h2 : trimPref ref ("refs/tags/".data) = []
    · exact Or.inr (Or.inr (Or.inr ⟨rfl, h2, rfl⟩))
    · exact Or.inr (Or.inl ⟨h2, rfl, rfl⟩)
  · by_cases h2 : hasPref ref ("refs/heads/".data) = true
    · have hsha : (matchesSha1 ref || matchesShortSha1 ref) = false :=
        refs_not_sha ref (hasPref_trans ref ("refs/".data) ("refs/heads/".data)
          (by decide) h2)
      simp only [hsha, h1, h2, Bool.false_eq_true, if_false, if_true]
      by_cases h3 : trimPref ref ("refs/heads/".data) = []
      · exact Or.inr (Or.inr (Or.inr ⟨rfl, rfl, h3⟩))
      · exact Or.inr (Or.inr (Or.inl ⟨h3, rfl, rfl⟩))
    · by_cases hsha : (matchesSha1 ref || matchesShortSha1 ref) = true
      · have hrefne : ref ≠ [] := by
          intro hr; rw [hr] at hsha
          simp [matchesSha1, matchesShortSha1] at hsha
        simp only [hsha, h1, h2, Bool.false_eq_true, if_false, if_true]
        have : ¬(ref = [] ∧ opts.RefIsBranch = true) := fun hc => hrefne hc.1
        simp only [this, if_false]
        have : ¬(ref = [] ∧ ¬opts.RefIsBranch = true ∧
            ¬hasPref ref ("refs/".data) = true) := fun hc => hrefne hc.1
        simp only [this, if_false]
        exact Or.inl ⟨hrefne, rfl, rfl⟩
      · have hsha' : (matchesSha1 ref || matchesShortSha1 ref) = false := by
          revert hsha; cases (matchesSha1 ref || matchesShortSha1 ref) <;> simp
        simp only [hsha', h1, h2, Bool.false_eq_true, if_false, if_true]
        by_cases h3 : opts.RefIsBranch = true
        · simp only [h3, and_true, if_pos rfl]
          by_cases h4 : ref = []
          · exact Or.inr (Or.inr (Or.inr ⟨rfl, rfl, h4⟩))
          · exact Or.inr (Or.inr (Or.inl ⟨h4, rfl, rfl⟩))
        · simp only [h3, and_false, if_false]
          by_cases h5 : hasPref ref ("refs/".data) = true
          · simp only [h5, not_true, and_false, if_false]
            exact Or.inr (Or.inr (Or.inr ⟨rfl, rfl, rfl⟩))
          · simp only [h5, not_false_iff, and_true, h3, if_pos]
            by_cases h4 : ref = []
            · exact Or.inr (Or.inr (Or.inr ⟨rfl, h4, rfl⟩))
            · exact Or.inr (Or.inl ⟨h4, rfl, rfl⟩)

/-- A successful run of the shared parse tail stores the raw token in
`RefString` and the classifier's output in `Tag`, `Branch`, `Commit`. -/
theorem mkComponents_ok (tool transport : GoString) (u : GoURL)
    (path₀ ref : GoString) (opts : options) (c : Components)
    (h : locatorParse.mkComponents tool transport u path₀ ref opts = .ok c) :
    c.RefString = ref ∧ c.Tag = (parseRefString ref opts).1 ∧
      c.Branch = (parseRefString ref opts).2.1 ∧
      c.Commit = (parseRefString ref opts).2.2 := by
  simp only [locatorParse.mkComponents] at h
  split at h
  · exact Except.noConfusion h
  · rw [Except.ok.injEq] at h
    subst h
    exact ⟨rfl, rfl, rfl, rfl⟩

/-- Every successful parse populates `Tag`, `Branch`, `Commit` by running
the classifier on the raw revision token, which is stored in `RefString`. -/
theorem locatorParse_ok_classified (l : GoString) (opts : options)
    (c : Components) (h : locatorParse l opts = .ok c) :
    parseRefString c.RefString opts = (c.Tag, c.Branch, c.Commit) := by
  simp only [locatorParse] at h
  split at h
  · exact Except.noConfusion h
  · split at h
    · exact Except.noConfusion h
    · rename_i u heq
      split at h
      · rename_i csl hsl
        split at hsl
        · split at hsl
          · rw [Option.some.injEq] at hsl
            rw [Except.ok.injEq] at h
            subst h; subst hsl
            simp
          · exact Option.noConfusion hsl
        · exact Option.noConfusion hsl
      · split at h
        · rw [if_pos rfl] at h
          obtain ⟨h1, h2, h3, h4⟩ := mkComponents_ok _ _ _ _ _ _ _ h
          rw [h1, h2, h3, h4]
        · split at h
          · obtain ⟨h1, h2, h3, h4⟩ := mkComponents_ok _ _ _ _ _ _ _ h
            rw [h1, h2, h3, h4]
          · split at h
            · exact Except.noConfusion h
            · obtain ⟨h1, h2, h3, h4⟩ := mkComponents_ok _ _ _ _ _ _ _ h
              rw [h1, h2, h3, h4]

/-! ### Claims about the parser -/

/-- A successful parse stores in `RefString` exactly the raw revision
token of the input: the substring the parser cuts after the first `@` of
the URI path produced by the generic URI parse of the (file-pretrimmed)
locator, with no trimming or classification applied.  Both exit paths of
`Locator.Parse` (the slug shortcut and the shared tail) copy that cut
verbatim into `RefString`. -/
theorem locatorParse_ok_raw_token (l : GoString) (opts : options)
    (c : Components) (h : locatorParse l opts = .ok c) :
    ∃ u, urlParse (trimPref l ("file://".data)) = some u ∧
      c.RefString = (cut u.path '@').2.1 := by
  simp only [locatorParse] at h
  split at h
  · exact Except.noConfusion h
  · split at h
    · exact Except.noConfusion h
    · rename_i u heq
      refine ⟨u, heq, ?_⟩
      split at h
      · rename_i csl hsl
        split at hsl
        · split at hsl
          · rw [Option.some.injEq] at hsl
            rw [Except.ok.injEq] at h
            subst h; subst hsl
            rfl
          · exact Option.noConfusion hsl
        · exact Option.noConfusion hsl
      · split at h
        · rw [if_pos rfl] at h
          exact (mkComponents_ok _ _ _ _ _ _ _ h).1
        · split at h
          · exact (mkComponents_ok _ _ _ _ _ _ _ h).1
          · split at h
            · exact Except.noConfusion h
            · exact (mkComponents_ok _ _ _ _ _ _ _ h).1

/-- C5: for every locator string and every option setting, a successful
Parse returns components in which exactly one of Commit, Tag, Branch is
non-empty or all three are empty, and RefString holds the raw,
unclassified revision token whenever one was present: it equals the
verbatim substring cut after the first `@` of the parsed URI path, and
the classification fields are exactly the classifier's output on it. -/
theorem C5_parse_ref_invariant (l : GoString) (opts : options)
    (c : Components) (h : locatorParse l opts = .ok c) :
    (∃ u, urlParse (trimPref l ("file://".data)) = some u ∧
        c.RefString = (cut u.path '@').2.1) ∧
      parseRefString c.RefString opts = (c.Tag, c.Branch, c.Commit) ∧
      exactlyOneOrAllEmpty c.Commit c.Tag c.Branch := by
  have hraw := locatorParse_ok_raw_token l opts c h
  have hc := locatorParse_ok_classified l opts c h
  refine ⟨hraw, hc, ?_⟩
  have hi := parseRefString_invariant c.RefString opts
  rw [hc] at hi
  exact hi

/-- Witness for C5 at the locator `https://github.com/x/y@refs/tags/v1`:
classification trims the token down to the Tag `v1`, yet `RefString`
still carries the raw token `refs/tags/v1` cut from the URI path. -/
theorem C5_witness :
    (∃ u, urlParse (trimPref ("https://github.com/x/y@refs/tags/v1".data)
        ("file://".data)) = some u ∧
        ("refs/tags/v1".data : GoString) = (cut u.path '@').2.1) ∧
      parseRefString ("refs/tags/v1".data) defaultOptions =
        ("v1".data, ([] : GoString), ([] : GoString)) ∧
      exactlyOneOrAllEmpty [] ("v1".data) [] :=
  C5_parse_ref_invariant ("https://github.com/x/y@refs/tags/v1".data)
    defaultOptions
    { Tool := [], Transport := "https".data, Hostname := "github.com".data,
      RepoPath := "/x/y".data, RefString := "refs/tags/v1".data, Commit := [],
      Tag := "v1".data, Branch := [], SubPath := [] } (by decide)

/-- Counterexample to C7: with the RefIsBranch option set, the token
`refs/notes/commits` is classified as a branch (the whole token), so the
three fields are not all left empty under both settings of the option. -/
theorem C7_counterexample :
    parseRefString ("refs/notes/commits".data)
        { RefIsBranch := true, ClonePath := [] } =
      ([], "refs/notes/commits".data, []) ∧
      ("refs/notes/commits".data : GoString) ≠ [] := by decide

/-- C7 as amended: a token starting with `refs/` but not `refs/tags/` or
`refs/heads/` is left fully unclassified when RefIsBranch is false (the
default); when RefIsBranch is true the whole token becomes the Branch. -/
theorem C7_amended_refs_unclassified (ref : GoString) (opts : options)
    (h1 : hasPref ref ("refs/".data) = true)
    (h2 : hasPref ref ("refs/tags/".data) = false)
    (h3 : hasPref ref ("refs/heads/".data) = false) :
    parseRefString ref opts =
      (if opts.RefIsBranch then ([], ref, []) else ([], [], [])) := by
  have hsha := refs_not_sha ref h1
  by_cases hb : opts.RefIsBranch
  · simp [parseRefString, hsha, h2, h3, h1, hb]
  · simp [parseRefString, hsha, h2, h3, h1, hb]

/-- Witness for the amended C7 at the token `refs/notes/commits`. -/
theorem C7_amended_witness :
    parseRefString ("refs/notes/commits".data) defaultOptions =
      (if defaultOptions.RefIsBranch
       then ([], "refs/notes/commits".data, [])
       else ([], [], [])) :=
  C7_amended_refs_unclassified ("refs/notes/commits".data) defaultOptions
    (by decide) (by decide) (by decide)

/-- Counterexample to C6: the locator `file://org/repo` begins with the
literal prefix `file://`, yet a successful Parse classifies it through the
github-slug shortcut (the trimmed remainder `org/repo` has no scheme and
no hostname and matches the slug regex), returning Transport `https` (not
`file`) and Hostname `github.com` (not empty). -/
theorem C6_counterexample :
    (locatorParse ("file://org/repo".data) defaultOptions).map
        (fun c => (c.Transport, c.Tool, c.Hostname)) =
      .ok ("https".data, "git".data, "github.com".data) ∧
      ("https".data : GoString) ≠ "file".data := by decide

/-- The hostname produced by the file-transport host folding is always
empty. -/
theorem fileFold_snd (u : GoURL) (p : GoString) :
    (locatorParse.fileFold ("file".data) u p).2 = [] := by
  by_cases h : u.hostname = []
  · simp [locatorParse.fileFold, h]
  · simp [locatorParse.fileFold, h]

/-- C6 as amended: for every locator beginning with `file://` that does
not take the github-slug shortcut, a successful Parse yields
Transport=file, Tool=git, an empty Hostname with any host-looking segment
folded into RepoPath, and Parse fails with an error when the resulting
path for the file transport is empty. -/
theorem C6_amended_file_parse (l : GoString) (u : GoURL) (opts : options)
    (hl : hasPref l ("file://".data) = true)
    (hu : urlParse (trimPref l ("file://".data)) = some u)
    (hslug : ¬(u.hostname = [] ∧ u.scheme = [] ∧ u.path ≠ [] ∧
        slugMatch (cut u.path '@').1 = true)) :
    (∀ c, locatorParse l opts = .ok c →
        c.Transport = "file".data ∧ c.Tool = "git".data ∧ c.Hostname = [] ∧
          c.RepoPath = (locatorParse.fileFold ("file".data) u (cut u.path '@').1).1) ∧
      ((locatorParse.fileFold ("file".data) u (cut u.path '@').1).1 = [] →
        locatorParse l opts = .error .missingFilePath) := by
  have hne : l ≠ [] := by
    obtain ⟨t, rfl⟩ := hasPref_exists l _ hl
    simp
  have hslugnone :
      (if u.hostname = [] ∧ u.scheme = [] ∧ u.path ≠ [] then
        if slugMatch (cut u.path '@').1 = true then
          some { Tool := "git".data, Transport := "https".data,
                 Hostname := "github.com".data, RepoPath := (cut u.path '@').1,
                 RefString := (cut u.path '@').2.1,
                 Commit := (parseRefString (cut u.path '@').2.1 opts).2.2,
                 Tag := (parseRefString (cut u.path '@').2.1 opts).1,
                 Branch := (parseRefString (cut u.path '@').2.1 opts).2.1,
                 SubPath := u.fragment }
        else none
      else none) = (none : Option Components) := by
    by_cases hA : u.hostname = [] ∧ u.scheme = [] ∧ u.path ≠ []
    · rw [if_pos hA]
      have : slugMatch (cut u.path '@').1 ≠ true := fun hs =>
        hslug ⟨hA.1, hA.2.1, hA.2.2, hs⟩
      rw [if_neg this]
    · rw [if_neg hA]
  have hstep : locatorParse l opts =
      locatorParse.mkComponents ("git".data) ("file".data) u
        (cut u.path '@').1 (cut u.path '@').2.1 opts := by
    simp only [locatorParse, hu]
    rw [if_neg hne]
    rw [hslugnone]
    rw [hl]
    rfl
  rw [hstep]
  constructor
  · intro c hc
    simp only [locatorParse.mkComponents] at hc
    split at hc
    · exact Except.noConfusion hc
    · rw [Except.ok.injEq] at hc
      subst hc
      exact ⟨rfl, rfl, fileFold_snd u _, rfl⟩
  · intro hp
    simp only [locatorParse.mkComponents]
    rw [if_pos ⟨hp, trivial⟩]

/-- Witness for the amended C6 at the locator `file:///a/b`. -/
theorem C6_amended_witness :
    (∀ c, locatorParse ("file:///a/b".data) defaultOptions = .ok c →
        c.Transport = "file".data ∧ c.Tool = "git".data ∧ c.Hostname = [] ∧
          c.RepoPath = (locatorParse.fileFold ("file".data)
            { scheme := [], hostname := [], path := "/a/b".data, fragment := [] }
            (cut ("/a/b".data) '@').1).1) ∧
      ((locatorParse.fileFold ("file".data)
            { scheme := [], hostname := [], path := "/a/b".data, fragment := [] }
            (cut ("/a/b".data) '@').1).1 = [] →
        locatorParse ("file:///a/b".data) defaultOptions = .error .missingFilePath) :=
  C6_amended_file_parse ("file:///a/b".data)
    { scheme := [], hostname := [], path := "/a/b".data, fragment := [] }
    defaultOptions (by decide) (by decide) (by decide)

/-- When `strings.Cut` does not find the separator, it returns the whole
string and an empty remainder. -/
theorem cut_not_found (s : GoString) (c : Char) (h : (cut s c).2.2 = false) :
    (cut s c).1 = s ∧ (cut s c).2.1 = [] := by
  induction s with
  | nil => simp [cut]
  | cons x rest ih =>
    simp only [cut] at h ⊢
    by_cases hx : x = c
    · rw [if_pos hx] at h
      simp at h
    · rw [if_neg hx] at h ⊢
      obtain ⟨h1, h2⟩ := ih h
      simp [h1, h2]

/-- A successful run of the shared parse tail copies its tool and
transport arguments into the `Tool` and `Transport` fields. -/
theorem mkComponents_tool_transport (tool transport : GoString) (u : GoURL)
    (path₀ ref : GoString) (opts : options) (c : Components)
    (h : locatorParse.mkComponents tool transport u path₀ ref opts = .ok c) :
    c.Tool = tool ∧ c.Transport = transport := by
  simp only [locatorParse.mkComponents] at h
  split at h
  · exact Except.noConfusion h
  · rw [Except.ok.injEq] at h
    subst h
    exact ⟨rfl, rfl⟩

/-- C8: for every locator not beginning with `file://` whose parsed URI
scheme is non-empty and contains no `+` separator, Parse treats the whole
scheme as the transport with an empty Tool, and returns an error unless
that transport is https, ssh, or file. -/
theorem C8_plain_transport_rejected (l : GoString) (u : GoURL) (opts : options)
    (hnf : hasPref l ("file://".data) = false)
    (hu : urlParse l = some u)
    (hs : u.scheme ≠ [])
    (hplus : (cut u.scheme '+').2.2 = false) :
    (∀ c, locatorParse l opts = .ok c →
        c.Transport = u.scheme ∧ c.Tool = []) ∧
      (u.scheme ≠ "https".data ∧ u.scheme ≠ "ssh".data ∧
          u.scheme ≠ "file".data →
        locatorParse l opts = .error .unsupportedTransport) := by
  have hne : l ≠ [] := by
    intro h
    rw [h] at hu
    have h2 : urlParse [] = some { scheme := [], hostname := [], path := [], fragment := [] } := by decide
    have h3 := h2.symm.trans hu
    rw [Option.some.injEq] at h3
    exact hs (congrArg GoURL.scheme h3).symm
  have htrim : trimPref l ("file://".data) = l := by
    unfold trimPref
    rw [show (("file://".data).isPrefixOf l) = false from hnf]
    simp
  obtain ⟨hcut1, -⟩ := cut_not_found u.scheme '+' hplus
  have hA : ¬(u.hostname = [] ∧ u.scheme = [] ∧ u.path ≠ []) :=
    fun hA => hs hA.2.1
  have hstep : locatorParse l opts =
      (if u.scheme ≠ "https".data ∧ u.scheme ≠ "ssh".data ∧
          u.scheme ≠ "file".data
       then .error .unsupportedTransport
       else locatorParse.mkComponents [] u.scheme u (cut u.path '@').1
         (cut u.path '@').2.1 opts) := by
    simp only [locatorParse, htrim, hu]
    rw [if_neg hne]
    rw [if_neg hA]
    rw [hnf, hplus]
    rw [hcut1]
    rfl
  rw [hstep]
  constructor
  · intro c hc
    split at hc
    · exact Except.noConfusion hc
    · obtain ⟨h1, h2⟩ := mkComponents_tool_transport _ _ _ _ _ _ _ hc
      exact ⟨h2, h1⟩
  · intro hbad
    rw [if_pos hbad]

/-- Witness for C8: the locator `http://github.com/x/y` (plain scheme
`http`, no tool prefix) is rejected with the unsupported-transport
error. -/
theorem C8_witness :
    (∀ c, locatorParse ("http://github.com/x/y".data) defaultOptions = .ok c →
        c.Transport = "http".data ∧ c.Tool = []) ∧
      (("http".data : GoString) ≠ "https".data ∧
          ("http".data : GoString) ≠ "ssh".data ∧
          ("http".data : GoString) ≠ "file".data →
        locatorParse ("http://github.com/x/y".data) defaultOptions =
          .error .unsupportedTransport) :=
  C8_plain_transport_rejected ("http://github.com/x/y".data)
    { scheme := "http".data, hostname := "github.com".data,
      path := "/x/y".data, fragment := [] }
    defaultOptions (by decide) (by decide) (by decide) (by decide)

/-! ### Lemmas about the clone-plan builder -/

instance : Inhabited Components :=
  ⟨⟨[], [], [], [], [], [], [], [], []⟩⟩

instance : Inhabited copyPlan :=
  ⟨⟨[], default, []⟩⟩

/-- Specification of how one loop iteration changes the key list of the
plan map: an existing key leaves the list unchanged, a new key is
appended. -/
def insertKey (ks : List GoString) (k : GoString) : List GoString :=
  if k ∈ ks then ks else ks ++ [k]

theorem insertPlan_keys (acc : List (GoString × copyPlan)) (l : GoString)
    (i : Nat) (c : Components) :
    (insertPlan acc l i c).map Prod.fst =
      insertKey (acc.map Prod.fst) (dedupKey c) := by
  induction acc with
  | nil => simp [insertPlan, insertKey]
  | cons kp rest ih =>
    obtain ⟨k₀, p₀⟩ := kp
    by_cases hk : k₀ = dedupKey c
    · subst hk
      have hstep : insertPlan ((dedupKey c, p₀) :: rest) l i c =
          (dedupKey c, { p₀ with Files := p₀.Files ++ [(i, c.SubPath)] }) :: rest := by
        unfold insertPlan
        rw [if_pos rfl]
      rw [hstep]
      have hm : dedupKey c ∈ ((dedupKey c, p₀) :: rest).map Prod.fst := by
        simp
      rw [insertKey, if_pos hm]
      simp
    · simp only [insertPlan, if_neg hk, List.map_cons, ih, insertKey]
      by_cases hm : dedupKey c ∈ rest.map Prod.fst
      · rw [if_pos hm, if_pos (List.mem_cons_of_mem _ hm)]
      · rw [if_neg hm, if_neg ?_]
        · simp
        · intro hc
          rcases List.mem_cons.mp hc with h | h
          · exact hk h.symm
          · exact hm h

theorem insertKey_nodup (ks : List GoString) (k : GoString)
    (h : ks.Nodup) : (insertKey ks k).Nodup := by
  unfold insertKey
  by_cases hm : k ∈ ks
  · rw [if_pos hm]; exact h
  · rw [if_neg hm]
    simp [List.nodup_append, h, hm]

theorem insertKey_toFinset (ks : List GoString) (k : GoString) :
    (insertKey ks k).toFinset = insert k ks.toFinset := by
  by_cases hm : k ∈ ks
  · rw [insertKey, if_pos hm]
    exact (Finset.insert_eq_self.mpr (List.mem_toFinset.mpr hm)).symm
  · rw [insertKey, if_neg hm]
    ext a
    simp [or_comm]

/-- The keys of the parse results of a locator list, in order. -/
def parsedKeys (locators : List GoString) : List GoString :=
  (locators.filterMap (fun l => (locatorParse l defaultOptions).toOption)).map
    dedupKey

theorem buildCloneListGo_keys (rest : List GoString) :
    ∀ i acc cl, buildCloneListGo i acc rest = .ok cl →
      (cl.map Prod.fst).toFinset =
        (acc.map Prod.fst).toFinset ∪ (parsedKeys rest).toFinset ∧
      ((acc.map Prod.fst).Nodup → (cl.map Prod.fst).Nodup) := by
  induction rest with
  | nil =>
    intro i acc cl h
    rw [buildCloneListGo, Except.ok.injEq] at h
    subst h
    simp [parsedKeys]
  | cons l rest' ih =>
    intro i acc cl h
    rw [buildCloneListGo] at h
    split at h
    · exact Except.noConfusion h
    · rename_i c hc
      obtain ⟨h1, h2⟩ := ih (i + 1) (insertPlan acc l i c) cl h
      rw [insertPlan_keys] at h1 h2
      constructor
      · rw [h1, insertKey_toFinset]
        have : parsedKeys (l :: rest') = dedupKey c :: parsedKeys rest' := by
          simp [parsedKeys, List.filterMap_cons, hc, Except.toOption]
        rw [this]
        ext a
        simp
        try tauto
      · intro hn
        exact h2 (insertKey_nodup _ _ hn)

theorem insertPlan_indices (acc : List (GoString × copyPlan)) (l : GoString)
    (i : Nat) (c : Components) :
    List.Perm (planIndices (insertPlan acc l i c)) (i :: planIndices acc) := by
  induction acc with
  | nil => simp [insertPlan, planIndices]
  | cons kp rest ih =>
    obtain ⟨k₀, p₀⟩ := kp
    by_cases hk : k₀ = dedupKey c
    · subst hk
      have hstep : insertPlan ((dedupKey c, p₀) :: rest) l i c =
          (dedupKey c, { p₀ with Files := p₀.Files ++ [(i, c.SubPath)] }) :: rest := by
        unfold insertPlan
        rw [if_pos rfl]
      rw [hstep]
      show List.Perm ((p₀.Files ++ [(i, c.SubPath)]).map Prod.fst ++ planIndices rest)
        (i :: (p₀.Files.map Prod.fst ++ planIndices rest))
      rw [List.map_append, List.append_assoc]
      exact List.perm_middle
    · have hstep : insertPlan ((k₀, p₀) :: rest) l i c =
          (k₀, p₀) :: insertPlan rest l i c := by
        simp only [insertPlan]
        rw [if_neg hk]
      rw [hstep]
      show List.Perm (p₀.Files.map Prod.fst ++ planIndices (insertPlan rest l i c))
        (i :: (p₀.Files.map Prod.fst ++ planIndices rest))
      exact (List.Perm.append_left _ ih).trans List.perm_middle

theorem buildCloneListGo_indices (rest : List GoString) :
    ∀ i acc cl, buildCloneListGo i acc rest = .ok cl →
      List.Perm (planIndices cl) (planIndices acc ++ List.range' i rest.length) := by
  induction rest with
  | nil =>
    intro i acc cl h
    rw [buildCloneListGo, Except.ok.injEq] at h
    subst h
    simp
  | cons l rest' ih =>
    intro i acc cl h
    rw [buildCloneListGo] at h
    split at h
    · exact Except.noConfusion h
    · rename_i c hc
      have t1 := ih (i + 1) (insertPlan acc l i c) cl h
      have t2 : List.Perm (planIndices (insertPlan acc l i c) ++ List.range' (i + 1) rest'.length)
          ((i :: planIndices acc) ++ List.range' (i + 1) rest'.length) :=
        List.Perm.append_right _ (insertPlan_indices acc l i c)
      have t3 : List.Perm ((i :: planIndices acc) ++ List.range' (i + 1) rest'.length)
          (planIndices acc ++ (i :: List.range' (i + 1) rest'.length)) :=
        List.perm_middle.symm
      have t4 : planIndices acc ++ (i :: List.range' (i + 1) rest'.length) =
          planIndices acc ++ List.range' i (l :: rest').length := by
        rw [List.length_cons, List.range'_succ]
      exact ((t1.trans t2).trans t3).trans (t4 ▸ List.Perm.refl _)

/-- The indices reachable from the plans of a fully-built clone list are
exactly the original batch indices, each exactly once. -/
theorem buildCloneList_indices (locators : List GoString)
    (cl : List (GoString × copyPlan))
    (h : buildCloneList locators = .ok cl) :
    List.Perm (planIndices cl) (List.range locators.length) := by
  have := buildCloneListGo_indices locators 0 [] cl h
  simpa [planIndices, List.range_eq_range'] using this

theorem insertPlan_mem_new (acc : List (GoString × copyPlan)) (l : GoString)
    (i : Nat) (c : Components) :
    ∃ p, (dedupKey c, p) ∈ insertPlan acc l i c ∧ (i, c.SubPath) ∈ p.Files := by
  induction acc with
  | nil =>
    refine ⟨{ Locator := l, Components := c, Files := [(i, c.SubPath)] }, ?_, ?_⟩
    · simp [insertPlan]
    · simp
  | cons kp rest ih =>
    obtain ⟨k₀, p₀⟩ := kp
    by_cases hk : k₀ = dedupKey c
    · subst hk
      refine ⟨{ p₀ with Files := p₀.Files ++ [(i, c.SubPath)] }, ?_, ?_⟩
      · have hstep : insertPlan ((dedupKey c, p₀) :: rest) l i c =
            (dedupKey c, { p₀ with Files := p₀.Files ++ [(i, c.SubPath)] }) :: rest := by
          simp only [insertPlan]
          rw [if_pos trivial]
        rw [hstep]
        exact List.mem_cons_self _ _
      · simp
    · have hstep : insertPlan ((k₀, p₀) :: rest) l i c =
          (k₀, p₀) :: insertPlan rest l i c := by
        simp only [insertPlan]
        rw [if_neg hk]
      rw [hstep]
      obtain ⟨p, hp1, hp2⟩ := ih
      exact ⟨p, List.mem_cons_of_mem _ hp1, hp2⟩

theorem insertPlan_mem_old (acc : List (GoString × copyPlan)) (l : GoString)
    (i : Nat) (c : Components) (k : GoString) (p : copyPlan)
    (h : (k, p) ∈ acc) :
    ∃ p', (k, p') ∈ insertPlan acc l i c ∧ ∀ x ∈ p.Files, x ∈ p'.Files := by
  induction acc with
  | nil => cases h
  | cons kp rest ih =>
    obtain ⟨k₀, p₀⟩ := kp
    by_cases hk : k₀ = dedupKey c
    · subst hk
      have hstep : insertPlan ((dedupKey c, p₀) :: rest) l i c =
          (dedupKey c, { p₀ with Files := p₀.Files ++ [(i, c.SubPath)] }) :: rest := by
        simp only [insertPlan]
        rw [if_pos trivial]
      rw [hstep]
      rcases List.mem_cons.mp h with heq | hmem
      · rw [Prod.mk.injEq] at heq
        obtain ⟨hk', hp'⟩ := heq
        subst hk'
        subst hp'
        refine ⟨{ p with Files := p.Files ++ [(i, c.SubPath)] }, List.mem_cons_self _ _, ?_⟩
        intro x hx
        exact List.mem_append_left _ hx
      · exact ⟨p, List.mem_cons_of_mem _ hmem, fun x hx => hx⟩
    · have hstep : insertPlan ((k₀, p₀) :: rest) l i c =
          (k₀, p₀) :: insertPlan rest l i c := by
        simp only [insertPlan]
        rw [if_neg hk]
      rw [hstep]
      rcases List.mem_cons.mp h with heq | hmem
      · exact ⟨p, heq ▸ List.mem_cons_self _ _, fun x hx => hx⟩
      · obtain ⟨p', hp1, hp2⟩ := ih hmem
        exact ⟨p', List.mem_cons_of_mem _ hp1, hp2⟩

theorem buildCloneListGo_mem (rest : List GoString) :
    ∀ i acc cl, buildCloneListGo i acc rest = .ok cl →
      (∀ k p, (k, p) ∈ acc →
        ∃ p', (k, p') ∈ cl ∧ ∀ x ∈ p.Files, x ∈ p'.Files) ∧
      (∀ j (hj : j < rest.length) c,
        locatorParse (rest.get ⟨j, hj⟩) defaultOptions = .ok c →
        ∃ p, (dedupKey c, p) ∈ cl ∧ (i + j, c.SubPath) ∈ p.Files) := by
  induction rest with
  | nil =>
    intro i acc cl h
    rw [buildCloneListGo, Except.ok.injEq] at h
    subst h
    exact ⟨fun k p hp => ⟨p, hp, fun x hx => hx⟩, fun j hj => absurd hj (by simp)⟩
  | cons l rest' ih =>
    intro i acc cl h
    rw [buildCloneListGo] at h
    split at h
    · exact Except.noConfusion h
    · rename_i c₀ hc₀
      obtain ⟨ihold, ihnew⟩ := ih (i + 1) (insertPlan acc l i c₀) cl h
      constructor
      · intro k p hp
        obtain ⟨p', hp1, hp2⟩ := insertPlan_mem_old acc l i c₀ k p hp
        obtain ⟨p'', hq1, hq2⟩ := ihold k p' hp1
        exact ⟨p'', hq1, fun x hx => hq2 x (hp2 x hx)⟩
      · intro j hj c hc
        match j with
        | 0 =>
          have : c = c₀ := by
            rw [show (l :: rest').get ⟨0, hj⟩ = l from rfl] at hc
            rw [hc₀, Except.ok.injEq] at hc
            exact hc.symm
          subst this
          obtain ⟨p, hp1, hp2⟩ := insertPlan_mem_new acc l i c
          obtain ⟨p', hq1, hq2⟩ := ihold (dedupKey c) p hp1
          exact ⟨p', hq1, by simpa using hq2 _ hp2⟩
        | j' + 1 =>
          have hj' : j' < rest'.length := by
            simpa using Nat.lt_of_succ_lt_succ hj
          have := ihnew j' hj' c (by
            rw [show (l :: rest').get ⟨j' + 1, hj⟩ = rest'.get ⟨j', hj'⟩ from rfl] at hc
            exact hc)
          obtain ⟨p, hp1, hp2⟩ := this
          refine ⟨p, hp1, ?_⟩
          have harith : i + 1 + j' = i + (j' + 1) := by omega
          rwa [harith] at hp2

theorem lookup_copyPhase_not_mem (L : List Nat)
    (outcome : Nat → Option CopyErr) (i : Nat) (h : i ∉ L) :
    (L.filterMap (fun j => (outcome j).map (fun e => (j, e)))).lookup i = none := by
  induction L with
  | nil => rfl
  | cons j L' ih =>
    have hne : i ≠ j := fun hc => h (hc ▸ List.mem_cons_self _ _)
    have hni : i ∉ L' := fun hc => h (List.mem_cons_of_mem _ hc)
    rw [List.filterMap_cons]
    cases houtj : outcome j with
    | none => exact ih hni
    | some e =>
      have hbeq : (i == j) = false := beq_eq_false_iff_ne.mpr hne
      rw [Option.map_some', List.lookup_cons, hbeq]
      exact ih hni

theorem lookup_copyPhase_mem (L : List Nat) (outcome : Nat → Option CopyErr)
    (hnd : L.Nodup) (i : Nat) (hi : i ∈ L) :
    (L.filterMap (fun j => (outcome j).map (fun e => (j, e)))).lookup i =
      outcome i := by
  induction L with
  | nil => cases hi
  | cons j L' ih =>
    have hnd' : L'.Nodup := (List.nodup_cons.mp hnd).2
    have hjn : j ∉ L' := (List.nodup_cons.mp hnd).1
    rw [List.filterMap_cons]
    by_cases hij : i = j
    · subst hij
      cases houtj : outcome i with
      | none => exact lookup_copyPhase_not_mem L' outcome i hjn
      | some e =>
        rw [Option.map_some', List.lookup_cons]
        simp
    · have hi' : i ∈ L' := by
        rcases List.mem_cons.mp hi with h | h
        · exact absurd h hij
        · exact h
      cases houtj : outcome j with
      | none => exact ih hnd' hi'
      | some e =>
        have hbeq : (i == j) = false := beq_eq_false_iff_ne.mpr hij
        rw [Option.map_some', List.lookup_cons, hbeq]
        exact ih hnd' hi'

/-- A parse failure at the first failing index aborts the plan-building
loop with that index's error. -/
theorem buildCloneListGo_abort (rest : List GoString) :
    ∀ i acc j (hj : j < rest.length),
      (locatorParse (rest.get ⟨j, hj⟩) defaultOptions).isOk = false →
      (∀ j' (hj' : j' < j),
        (locatorParse (rest.get ⟨j', Nat.lt_trans hj' hj⟩) defaultOptions).isOk = true) →
      buildCloneListGo i acc rest = .error (.parseFailure (i + j)) := by
  induction rest with
  | nil =>
    intro i acc j hj
    exact absurd hj (by simp)
  | cons l rest' ih =>
    intro i acc j hj hfail hbefore
    match j with
    | 0 =>
      rw [show (l :: rest').get ⟨0, hj⟩ = l from rfl] at hfail
      rw [buildCloneListGo]
      cases hc : locatorParse l defaultOptions with
      | ok c =>
        rw [hc] at hfail
        exact absurd hfail (by simp [Except.isOk, Except.toBool])
      | error e => rfl
    | j' + 1 =>
      have h0 := hbefore 0 (Nat.succ_pos j')
      rw [show (l :: rest').get ⟨0, _⟩ = l from rfl] at h0
      cases hc : locatorParse l defaultOptions with
      | error e =>
        rw [hc] at h0
        exact absurd h0 (by simp [Except.isOk, Except.toBool])
      | ok c =>
        rw [buildCloneListGo, hc]
        have hj' : j' < rest'.length := by
          simpa using Nat.lt_of_succ_lt_succ hj
        have harith : i + (j' + 1) = (i + 1) + j' := by omega
        rw [harith]
        refine ih (i + 1) (insertPlan acc l i c) j' hj' ?_ ?_
        · rw [show rest'.get ⟨j', hj'⟩ = (l :: rest').get ⟨j' + 1, hj⟩ from rfl]
          exact hfail
        · intro k hk
          have := hbefore (k + 1) (Nat.succ_lt_succ hk)
          rw [show (l :: rest').get ⟨k + 1, _⟩ = rest'.get ⟨k, Nat.lt_trans hk hj'⟩ from rfl] at this
          exact this

/-! ### Claims about the batch orchestrator -/

/-- C1: in every batch accepted by CopyFileGroup, the clone phase performs
exactly one clone per distinct dedup key (one call per plan-map entry,
keys are distinct, and the key set is exactly the set of keys of the
parsed locators); and for locators with the same repository URL the key
coincides exactly when the raw revision tokens coincide, so
differently-spelled revision tokens give separate clones. -/
theorem C1_one_clone_per_repo_ref (locators : List GoString)
    (cl : List (GoString × copyPlan))
    (h : buildCloneList locators = .ok cl) :
    (cl.map Prod.fst).Nodup ∧
      (cl.map Prod.fst).toFinset = (parsedKeys locators).toFinset ∧
      (cloneCalls cl).length = (parsedKeys locators).toFinset.card ∧
      (∀ j (hj : j < locators.length) c,
        locatorParse (locators.get ⟨j, hj⟩) defaultOptions = .ok c →
        ∃ p, (dedupKey c, p) ∈ cl ∧ (j, c.SubPath) ∈ p.Files) ∧
      (∀ c c' : Components, c.RepoURL = c'.RepoURL →
        (dedupKey c = dedupKey c' ↔ c.RefString = c'.RefString)) := by
  obtain ⟨h1, h2⟩ := buildCloneListGo_keys locators 0 [] cl h
  have hnd : (cl.map Prod.fst).Nodup := h2 (by simp)
  have hts : (cl.map Prod.fst).toFinset = (parsedKeys locators).toFinset := by
    simpa using h1
  refine ⟨hnd, hts, ?_, ?_, ?_⟩
  · have hlen : (cloneCalls cl).length = (cl.map Prod.fst).length := by
      simp [cloneCalls]
    rw [hlen, ← hts]
    exact (List.toFinset_card_of_nodup hnd).symm
  · intro j hj c hc
    obtain ⟨-, hnew⟩ := buildCloneListGo_mem locators 0 [] cl h
    have := hnew j hj c hc
    simpa using this
  · intro c c' hrepo
    constructor
    · intro hkey
      unfold dedupKey at hkey
      rw [hrepo] at hkey
      have h2' := List.append_cancel_left hkey
      injection h2'
    · intro hr
      unfold dedupKey
      rw [hrepo, hr]

/-- Witness for C1: a batch of three slug locators, two sharing the same
repository and revision token, one with a different token, builds two
plans. -/
theorem C1_witness :
    (let cl :=
      [("https://github.com/x/y:v1".data,
        ({ Locator := "x/y@v1#a".data,
           Components :=
             { Tool := "git".data, Transport := "https".data,
               Hostname := "github.com".data, RepoPath := "x/y".data,
               RefString := "v1".data, Commit := [], Tag := "v1".data,
               Branch := [], SubPath := "a".data },
           Files := [(0, "a".data), (1, "b".data)] } : copyPlan)),
       ("https://github.com/x/y:v2".data,
        ({ Locator := "x/y@v2#a".data,
           Components :=
             { Tool := "git".data, Transport := "https".data,
               Hostname := "github.com".data, RepoPath := "x/y".data,
               RefString := "v2".data, Commit := [], Tag := "v2".data,
               Branch := [], SubPath := "a".data },
           Files := [(2, "a".data)] } : copyPlan))]
     let locators := ["x/y@v1#a".data, "x/y@v1#b".data, "x/y@v2#a".data]
     (cl.map Prod.fst).Nodup ∧
       (cl.map Prod.fst).toFinset = (parsedKeys locators).toFinset ∧
       (cloneCalls cl).length = (parsedKeys locators).toFinset.card ∧
       (∀ j (hj : j < locators.length) c,
         locatorParse (locators.get ⟨j, hj⟩) defaultOptions = .ok c →
         ∃ p, (dedupKey c, p) ∈ cl ∧ (j, c.SubPath) ∈ p.Files) ∧
       (∀ c c' : Components, c.RepoURL = c'.RepoURL →
         (dedupKey c = dedupKey c' ↔ c.RefString = c'.RefString))) :=
  C1_one_clone_per_repo_ref
    ["x/y@v1#a".data, "x/y@v1#b".data, "x/y@v2#a".data] _ (by decide)

/-- Counterexample to C2: for a commit-only locator the dedup key used by
CopyFileGroup is the repository URL joined with the raw revision token
(`RepoURL() + ":" + RefString`), not `RepoURL() + ":" + Branch + ":" +
Tag`; a commit-only revision token does contribute to the key. -/
theorem C2_counterexample :
    (buildCloneList ["x/y@0123abc".data]).map (fun cl => cl.map Prod.fst) =
      .ok ["https://github.com/x/y:0123abc".data] ∧
      (locatorParse ("x/y@0123abc".data) defaultOptions).map
          (fun c => (c.Branch, c.Tag, c.Commit)) =
        .ok (([] : GoString), ([] : GoString), "0123abc".data) ∧
      ("https://github.com/x/y:0123abc".data : GoString) ≠
        ("https://github.com/x/y".data ++ (':' :: ([] : GoString))) ++
          (':' :: ([] : GoString)) := by
  refine ⟨by decide, by decide, by decide⟩

/-- C2 as amended: the dedup key of a fetch plan is the parsed repository
URL, a ":" separator, and the raw revision token RefString — so a
commit-only revision token does contribute to the key — and every
successfully parsed locator is filed (with its original index and
subpath) under exactly that key. -/
theorem C2_amended_dedup_key (locators : List GoString)
    (cl : List (GoString × copyPlan))
    (h : buildCloneList locators = .ok cl)
    (j : Nat) (hj : j < locators.length) (c : Components)
    (hc : locatorParse (locators.get ⟨j, hj⟩) defaultOptions = .ok c) :
    dedupKey c = c.RepoURL ++ ':' :: c.RefString ∧
      ∃ p, (dedupKey c, p) ∈ cl ∧ (j, c.SubPath) ∈ p.Files := by
  refine ⟨rfl, ?_⟩
  obtain ⟨-, hnew⟩ := buildCloneListGo_mem locators 0 [] cl h
  have := hnew j hj c hc
  simpa using this

/-- Witness for the amended C2 at a single commit-only slug locator. -/
theorem C2_amended_witness :
    (let c : Components :=
      { Tool := "git".data, Transport := "https".data,
        Hostname := "github.com".data, RepoPath := "x/y".data,
        RefString := "0123abc".data, Commit := "0123abc".data, Tag := [],
        Branch := [], SubPath := "f".data }
     dedupKey c = c.RepoURL ++ ':' :: c.RefString ∧
       ∃ p, (dedupKey c, p) ∈
           [("https://github.com/x/y:0123abc".data,
             ({ Locator := "x/y@0123abc#f".data, Components := c,
                Files := [(0, "f".data)] } : copyPlan))] ∧
         (0, c.SubPath) ∈ p.Files) :=
  C2_amended_dedup_key ["x/y@0123abc#f".data] _ (by decide) 0 (by decide) _
    (by decide)

/-- Counterexample to C3: in the batch [`https://github.com/a/b#f`,
`http://github.com/a/b#f`] the second locator fails to parse, and
CopyFileGroup aborts the whole batch with the parse error for index 1 —
no clone plan is produced and the first (valid) locator is not planned,
cloned or copied — even though the first locator parses fine. -/
theorem C3_counterexample :
    buildCloneList
        ["https://github.com/a/b#f".data, "http://github.com/a/b#f".data] =
      .error (.parseFailure 1) ∧
      (locatorParse ("https://github.com/a/b#f".data) defaultOptions).isOk =
        true ∧
      copyFileGroup
          ["https://github.com/a/b#f".data, "http://github.com/a/b#f".data] 2
          (fun _ => none) (fun _ => none) = some (.parseFailure 1) := by
  refine ⟨by decide, by decide, by decide⟩

/-- C3 as amended: a parse failure aborts the batch: CopyFileGroup
returns the parse error carrying the first failing locator's original
index, no clone plan is built, and no clone or copy work is performed
(the result is the same parse error for every possible clone and copy
outcome). -/
theorem C3_amended_parse_aborts_batch (locators : List GoString)
    (numWriters : Nat) (cloneFail : GoString → Option Unit)
    (outcome : Nat → Option CopyErr) (j : Nat) (hj : j < locators.length)
    (hfail : (locatorParse (locators.get ⟨j, hj⟩) defaultOptions).isOk = false)
    (hbefore : ∀ j' (hj' : j' < j),
      (locatorParse (locators.get ⟨j', Nat.lt_trans hj' hj⟩)
        defaultOptions).isOk = true)
    (hw : locators.length = numWriters) :
    buildCloneList locators = .error (.parseFailure j) ∧
      copyFileGroup locators numWriters cloneFail outcome =
        some (.parseFailure j) := by
  have habort := buildCloneListGo_abort locators 0 [] j hj hfail hbefore
  rw [Nat.zero_add] at habort
  have habort' : buildCloneList locators = .error (.parseFailure j) := habort
  refine ⟨habort', ?_⟩
  unfold copyFileGroup
  rw [if_neg (fun hcc => hcc hw)]
  rw [habort']

/-- Witness for the amended C3 at a two-locator batch whose second entry
has the unsupported plain `http` transport. -/
theorem C3_amended_witness :
    buildCloneList
        ["https://github.com/a/b#f".data, "http://github.com/a/b#f".data] =
      .error (.parseFailure 1) ∧
      copyFileGroup
          ["https://github.com/a/b#f".data, "http://github.com/a/b#f".data] 2
          (fun _ => none) (fun _ => none) = some (.parseFailure 1) :=
  C3_amended_parse_aborts_batch
    ["https://github.com/a/b#f".data, "http://github.com/a/b#f".data] 2
    (fun _ => none) (fun _ => none) 1 (by decide) (by decide)
    (fun j' hj' => by
      have hz : j' = 0 := Nat.lt_one_iff.mp hj'
      subst hz
      exact (by decide :
        (locatorParse ("https://github.com/a/b#f".data) defaultOptions).isOk =
          true))
    (by decide)

/-- C10: when the number of writers differs from the number of locators,
CopyFileGroup returns the mismatch error immediately — the result is the
same for every locator list of that length and every clone and copy
outcome, so no locator is parsed and no clone or copy work happens. -/
theorem C10_writer_count_mismatch (locators : List GoString)
    (numWriters : Nat) (cloneFail : GoString → Option Unit)
    (outcome : Nat → Option CopyErr) (h : locators.length ≠ numWriters) :
    copyFileGroup locators numWriters cloneFail outcome =
      some .writersMismatch := by
  unfold copyFileGroup
  rw [if_pos h]

/-- Witness for C10: one locator against two writers. -/
theorem C10_witness :
    copyFileGroup ["x/y#f".data] 2 (fun _ => none) (fun _ => none) =
      some .writersMismatch :=
  C10_writer_count_mismatch ["x/y#f".data] 2 (fun _ => none) (fun _ => none)
    (by decide)

/-- C4: for every batch that plans and clones successfully, if no
copy-phase index fails CopyFileGroup returns nil; if at least one index
fails it returns a single ErrorList whose Errors slice has one position
per original input index, the failed index's error in that position and
nil elsewhere — the list is computed by projecting the error map through
the index range 0..n-1, so it depends only on the per-index outcomes and
not on any map iteration order. -/
theorem C4_positional_error_aggregation (locators : List GoString)
    (cl : List (GoString × copyPlan)) (cloneFail : GoString → Option Unit)
    (outcome : Nat → Option CopyErr)
    (hcl : buildCloneList locators = .ok cl)
    (hclone : ∀ kv ∈ cl, cloneFail kv.2.Locator = none) :
    ((∀ i, i < locators.length → outcome i = none) →
        copyFileGroup locators locators.length cloneFail outcome = none) ∧
      (∀ i, i < locators.length → outcome i ≠ none →
        ∃ lst, copyFileGroup locators locators.length cloneFail outcome =
            some (.errorList lst) ∧
          lst.length = locators.length ∧
          (∀ j, j < locators.length → lst.getD j none = outcome j)) := by
  have hunf : copyFileGroup locators locators.length cloneFail outcome =
      aggregateErrors locators.length (copyPhase cl outcome) := by
    unfold copyFileGroup
    rw [if_neg (fun hcc => hcc rfl)]
    rw [hcl]
    show (if cl.all (fun kv => (cloneFail kv.2.Locator).isNone) = true then
        aggregateErrors locators.length (copyPhase cl outcome)
      else some .cloneFailure) = _
    have hall : cl.all (fun kv => (cloneFail kv.2.Locator).isNone) = true := by
      rw [List.all_eq_true]
      intro kv hkv
      rw [hclone kv hkv]
      rfl
    rw [if_pos hall]
  have hperm := buildCloneList_indices locators cl hcl
  have hnd : (planIndices cl).Nodup :=
    hperm.nodup_iff.mpr (List.nodup_range _)
  have hmem : ∀ i, i ∈ planIndices cl ↔ i < locators.length := fun i => by
    rw [hperm.mem_iff, List.mem_range]
  constructor
  · intro hall0
    rw [hunf]
    unfold aggregateErrors
    rw [if_pos ?_]
    unfold copyPhase
    rw [List.filterMap_eq_nil_iff]
    intro j hjmem
    rw [hall0 j ((hmem j).mp hjmem)]
    rfl
  · intro i hi hne
    have hne' : copyPhase cl outcome ≠ [] := by
      intro hnil
      unfold copyPhase at hnil
      rw [List.filterMap_eq_nil_iff] at hnil
      have hx := hnil i ((hmem i).mpr hi)
      rw [Option.map_eq_none'] at hx
      exact hne hx
    refine ⟨(List.range locators.length).map
      (fun j => (copyPhase cl outcome).lookup j), ?_, ?_, ?_⟩
    · rw [hunf]
      unfold aggregateErrors
      rw [if_neg hne']
    · simp
    · intro j hjn
      have hjlen : j < ((List.range locators.length).map
          (fun j => (copyPhase cl outcome).lookup j)).length := by
        simpa using hjn
      rw [List.getD_eq_getElem?_getD]
      rw [List.getElem?_eq_getElem hjlen]
      rw [List.getElem_map]
      rw [List.getElem_range]
      exact lookup_copyPhase_mem (planIndices cl) outcome hnd j ((hmem j).mpr hjn)

/-- Witness for C4: two locators sharing one plan, where index 1 fails
its copy. -/
theorem C4_witness :
    ((∀ i, i < (["x/y@v1#a".data, "x/y@v1#b".data] : List GoString).length →
        (fun i => if i = 1 then some CopyErr.copyFailed else none : Nat → Option CopyErr) i = none) →
        copyFileGroup ["x/y@v1#a".data, "x/y@v1#b".data]
          (["x/y@v1#a".data, "x/y@v1#b".data] : List GoString).length
          (fun _ => none)
          (fun i => if i = 1 then some CopyErr.copyFailed else none) = none) ∧
      (∀ i, i < (["x/y@v1#a".data, "x/y@v1#b".data] : List GoString).length →
        (fun i => if i = 1 then some CopyErr.copyFailed else none : Nat → Option CopyErr) i ≠ none →
        ∃ lst, copyFileGroup ["x/y@v1#a".data, "x/y@v1#b".data]
            (["x/y@v1#a".data, "x/y@v1#b".data] : List GoString).length
            (fun _ => none)
            (fun i => if i = 1 then some CopyErr.copyFailed else none) =
            some (.errorList lst) ∧
          lst.length = (["x/y@v1#a".data, "x/y@v1#b".data] : List GoString).length ∧
          (∀ j, j < (["x/y@v1#a".data, "x/y@v1#b".data] : List GoString).length →
            lst.getD j none =
              (fun i => if i = 1 then some CopyErr.copyFailed else none : Nat → Option CopyErr) j)) :=
  C4_positional_error_aggregation ["x/y@v1#a".data, "x/y@v1#b".data]
    [("https://github.com/x/y:v1".data,
      ({ Locator := "x/y@v1#a".data,
         Components :=
           { Tool := "git".data, Transport := "https".data,
             Hostname := "github.com".data, RepoPath := "x/y".data,
             RefString := "v1".data, Commit := [], Tag := "v1".data,
             Branch := [], SubPath := "a".data },
         Files := [(0, "a".data), (1, "b".data)] } : copyPlan))]
    (fun _ => none)
    (fun i => if i = 1 then some CopyErr.copyFailed else none)
    (by decide) (by decide)
